import Mathlib

/-!
Shallow embedding of the collaborative todo-list backend
(Express + PostgreSQL).  The relational store is modelled as lists of
rows; each route handler becomes a function from the store (plus the
authenticated caller's id and the request parameters) to a response
together with the store after the handler ran.  SQL transactions
(BEGIN / COMMIT / ROLLBACK) are modelled by building a candidate store
and returning the original store when a step fails.
-/

set_option maxRecDepth 4000

namespace Todo

/-- A user row (`users` table): `id, name, email` as selected by the
auth middleware. -/
structure UserRow where
  id : Nat
  name : String
  email : String
deriving DecidableEq

/-- Role stored in a `list_members` row: the API only ever inserts
`member` or `admin` (`validateListMember` restricts the body's role,
transfer-ownership inserts `admin`). -/
inductive MemberRole where
  | member
  | admin
deriving DecidableEq

/-- A `lists` row. -/
structure ListRow where
  id : Nat
  name : String
  ownerId : Nat
deriving DecidableEq

/-- A `list_members` row, keyed by `(listId, userId)` (primary key). -/
structure MemberRow where
  listId : Nat
  userId : Nat
  role : MemberRole
deriving DecidableEq

/-- A `tasks` row. -/
structure TaskRow where
  id : Nat
  listId : Nat
  title : String
  description : Option String
  priority : Option String
  dueDate : Option String
  completed : Bool
deriving DecidableEq

/-- A `subtasks` row. -/
structure SubtaskRow where
  id : Nat
  taskId : Nat
  title : String
  completed : Bool
deriving DecidableEq

/-- A `tags` row (`name` unique). -/
structure TagRow where
  id : Nat
  name : String
deriving DecidableEq

/-- A `task_tags` row, keyed by `(taskId, tagId)` (primary key). -/
structure TaskTagRow where
  taskId : Nat
  tagId : Nat
deriving DecidableEq

/-- The relational store.  `nextListId` etc. model the SERIAL
sequences. -/
structure Store where
  users : List UserRow
  lists : List ListRow
  listMembers : List MemberRow
  tasks : List TaskRow
  subtasks : List SubtaskRow
  tags : List TagRow
  taskTags : List TaskTagRow
  nextListId : Nat
  nextTaskId : Nat
  nextSubtaskId : Nat
  nextTagId : Nat
deriving DecidableEq

/-- The part of an HTTP JSON response the handlers produce: status code
and the `error` field of the body (`Option.none` on success). -/
structure Response where
  status : Nat
  error : Option String
deriving DecidableEq

/-- The effective role of a principal on a list, as surfaced by the
`user_role` CASE expression of `GET /lists/:id`:
owner when `l.owner_id = $1`, else the membership row's role,
else no access at all. -/
inductive Role where
  | owner
  | admin
  | member
  | none
deriving DecidableEq

/-- View a stored membership role as an effective role. -/
def MemberRole.toRole : MemberRole → Role
  | MemberRole.member => Role.member
  | MemberRole.admin => Role.admin

/-- Query `SELECT ... FROM users WHERE email = $1` (email unique). -/
def findUserByEmail (s : Store) (email : String) : Option UserRow :=
  s.users.find? (fun u => u.email == email)

/-- Query `SELECT ... FROM lists WHERE id = $1`. -/
def findListRow (s : Store) (listId : Nat) : Option ListRow :=
  s.lists.find? (fun l => l.id == listId)

/-- Query `SELECT ... FROM list_members WHERE list_id = $1 AND user_id = $2`
(at most one row: primary key). -/
def findMembership (s : Store) (listId userId : Nat) : Option MemberRow :=
  s.listMembers.find? (fun m => m.listId == listId && m.userId == userId)

/-- Helper `checkListAccess` of the tasks router: the joined row
`(l.owner_id, lm.role)` when
`l.id = listId AND (l.owner_id = userId OR lm.user_id = userId)`,
`Option.none` otherwise. -/
def checkListAccess (s : Store) (userId listId : Nat) :
    Option (Nat × Option MemberRole) :=
  match findListRow s listId with
  | Option.none => Option.none
  | Option.some l =>
    match findMembership s listId userId with
    | Option.some m => Option.some (l.ownerId, Option.some m.role)
    | Option.none =>
      if l.ownerId == userId then Option.some (l.ownerId, Option.none)
      else Option.none

/-- The `user_role` CASE of `GET /lists/:id`:
`'owner'` when `l.owner_id = $1`, else `lm.role` when a membership row
exists, else NULL (no row passes the WHERE, surfaced as no access). -/
def effectiveRole (s : Store) (userId : Nat) (l : ListRow) : Role :=
  if l.ownerId == userId then Role.owner
  else
    match findMembership s l.id userId with
    | Option.some m => m.role.toRole
    | Option.none => Role.none

/-- Helper `checkListPermission` of the listMembers router:
with `requireOwner` it is `lists WHERE id = $1 AND owner_id = $2`;
otherwise the row passes when the caller owns the list or holds an
`admin` membership. -/
def checkListPermission (s : Store) (userId listId : Nat)
    (requireOwner : Bool) : Bool :=
  if requireOwner then
    s.lists.any (fun l => l.id == listId && l.ownerId == userId)
  else
    match findListRow s listId with
    | Option.none => false
    | Option.some l =>
      l.ownerId == userId ||
        (match findMembership s listId userId with
         | Option.some m => m.role == MemberRole.admin
         | Option.none => false)

/-- Model of JavaScript's `String.prototype.toLowerCase`, per
character. -/
def lowerString (s : String) : String := ⟨s.data.map Char.toLower⟩

/-- Whitespace characters removed by JavaScript's
`String.prototype.trim`. -/
def isSpaceChar (c : Char) : Bool :=
  c == ' ' || c == '\t' || c == '\n' || c == '\r'

/-- Model of JavaScript's `String.prototype.trim`. -/
def trimString (s : String) : String :=
  ⟨((s.data.dropWhile isSpaceChar).reverse.dropWhile isSpaceChar).reverse⟩

/-- Computation `tagName.trim().toLowerCase()` applied to every
supplied tag name. -/
def normalizeTag (nm : String) : String := lowerString (trimString nm)

/-! ## listMembers router -/

/-- Route `POST /lists` (`createList`): inserts a list owned by the caller;
no membership row is inserted. -/
def createList (s : Store) (callerId : Nat) (name : String) :
    Response × Store :=
  (⟨201, Option.none⟩,
   { s with
       lists := s.lists ++ [⟨s.nextListId, name, callerId⟩],
       nextListId := s.nextListId + 1 })

/-- Route `POST /lists/:listId/members` (`addMember`): permission check
(owner or admin), resolve the target by email, reject when the target
is the owner or already a member, else insert one membership row. -/
def addMember (s : Store) (callerId listId : Nat) (email : String)
    (role : MemberRole) : Response × Store :=
  if !(checkListPermission s callerId listId false) then
    (⟨403, Option.some "Permission denied - only list owners and admins can add members"⟩, s)
  else
    match findUserByEmail s email with
    | Option.none =>
      (⟨404, Option.some "User not found with this email address"⟩, s)
    | Option.some u =>
      if s.lists.any (fun l => l.id == listId && l.ownerId == u.id) then
        (⟨409, Option.some "User is already the owner of this list"⟩, s)
      else if (findMembership s listId u.id).isSome then
        (⟨409, Option.some "User is already a member of this list"⟩, s)
      else
        (⟨201, Option.none⟩,
         { s with listMembers := ⟨listId, u.id, role⟩ :: s.listMembers })

/-- Parse the validated role string of the update-role body. -/
def parseRole (r : String) : MemberRole :=
  if r == "admin" then MemberRole.admin else MemberRole.member

/-- Route `PUT /lists/:listId/members/:userId` (`updateMemberRole`):
validates the role string, checks caller permission (owner or admin),
then looks the target up in `list_members` only — there is no check
whether the target is the list owner. -/
def updateMemberRole (s : Store) (callerId listId targetId : Nat)
    (role? : Option String) : Response × Store :=
  match role? with
  | Option.none =>
    (⟨400, Option.some "Role must be either member or admin"⟩, s)
  | Option.some r =>
    if !(r == "member" || r == "admin") then
      (⟨400, Option.some "Role must be either member or admin"⟩, s)
    else if !(checkListPermission s callerId listId false) then
      (⟨403, Option.some "Permission denied - only list owners and admins can update member roles"⟩, s)
    else
      match findMembership s listId targetId with
      | Option.none =>
        (⟨404, Option.some "User is not a member of this list"⟩, s)
      | Option.some _ =>
        (⟨200, Option.none⟩,
         { s with
             listMembers := s.listMembers.map (fun m =>
               if m.listId == listId && m.userId == targetId then
                 { m with role := parseRole r }
               else m) })

/-- Route `DELETE /lists/:listId/members/:userId` (`removeMember`):
permission check, explicit owner check (400), then DELETE; a zero row
count yields 404. -/
def removeMember (s : Store) (callerId listId targetId : Nat) :
    Response × Store :=
  if !(checkListPermission s callerId listId false) then
    (⟨403, Option.some "Permission denied - only list owners and admins can remove members"⟩, s)
  else if s.lists.any (fun l => l.id == listId && l.ownerId == targetId) then
    (⟨400, Option.some "Cannot remove the list owner"⟩, s)
  else if (s.listMembers.filter (fun m =>
      !(m.listId == listId && m.userId == targetId))).length ==
      s.listMembers.length then
    (⟨404, Option.some "User is not a member of this list"⟩, s)
  else
    (⟨200, Option.none⟩,
     { s with listMembers := s.listMembers.filter (fun m =>
         !(m.listId == listId && m.userId == targetId)) })

/-- Route `DELETE /lists/:listId/leave` (`leaveList`): owners are rejected
with 400, then the caller's membership row is deleted; a zero row
count yields 404. -/
def leaveList (s : Store) (callerId listId : Nat) : Response × Store :=
  if s.lists.any (fun l => l.id == listId && l.ownerId == callerId) then
    (⟨400, Option.some "List owners cannot leave their own lists. Transfer ownership or delete the list instead."⟩, s)
  else if (s.listMembers.filter (fun m =>
      !(m.listId == listId && m.userId == callerId))).length ==
      s.listMembers.length then
    (⟨404, Option.some "You are not a member of this list"⟩, s)
  else
    (⟨200, Option.none⟩,
     { s with listMembers := s.listMembers.filter (fun m =>
         !(m.listId == listId && m.userId == callerId)) })

/-- The three writes of the transfer-ownership transaction; a `fail`
flag injects a storage failure right at that step. -/
inductive TxnStep where
  | delMembership
  | insMembership
  | updOwnerId
deriving DecidableEq

/-- Step (b) of the transfer transaction:
`DELETE FROM list_members WHERE list_id = $1 AND user_id = $2` for the
incoming owner; step (c) may fail on the `(list_id, user_id)` primary
key when the previous owner already has a row, and every step may fail
for storage reasons (the `fail` oracle); any failure aborts the
transaction, which the route rolls back. -/
def removeNewOwnerMembership (s : Store) (listId newOwnerId : Nat) : Store :=
  { s with listMembers := s.listMembers.filter (fun m =>
      !(m.listId == listId && m.userId == newOwnerId)) }

/-- Step (c) of the transfer transaction:
`INSERT INTO list_members (list_id, user_id, role) VALUES ($1, $2, 'admin')`
for the previous owner. -/
def insertPrevOwnerAdmin (s : Store) (listId callerId : Nat) : Store :=
  { s with listMembers := ⟨listId, callerId, MemberRole.admin⟩ :: s.listMembers }

/-- Step (d) of the transfer transaction:
`UPDATE lists SET owner_id = $1 WHERE id = $2`. -/
def setListOwner (s : Store) (listId newOwnerId : Nat) : Store :=
  { s with lists := s.lists.map (fun l =>
      if l.id == listId then { l with ownerId := newOwnerId } else l) }

/-- The BEGIN..COMMIT body of the transfer, composed of the three
steps. -/
def transferTxn (s : Store) (callerId listId newOwnerId : Nat)
    (fail : TxnStep → Bool) : Option Store :=
  if fail TxnStep.delMembership then Option.none
  else if fail TxnStep.insMembership ||
      (findMembership (removeNewOwnerMembership s listId newOwnerId)
        listId callerId).isSome then
    Option.none
  else if fail TxnStep.updOwnerId then Option.none
  else
    Option.some (setListOwner
      (insertPrevOwnerAdmin (removeNewOwnerMembership s listId newOwnerId)
        listId callerId)
      listId newOwnerId)

/-- Route `PUT /lists/:listId/transfer-ownership`: requires the email in the
body, requires the caller to be the owner, resolves the new owner by
lower-cased email, rejects the self-transfer, then runs the
transaction; a failing transaction is rolled back (the store reverts
to its pre-call value) and surfaces a 500. -/
def transferOwnership (s : Store) (callerId listId : Nat)
    (email? : Option String) (fail : TxnStep → Bool) : Response × Store :=
  match email? with
  | Option.none => (⟨400, Option.some "Email is required"⟩, s)
  | Option.some email =>
    if !(checkListPermission s callerId listId true) then
      (⟨403, Option.some "Permission denied - only list owners can transfer ownership"⟩, s)
    else
      match findUserByEmail s (lowerString email) with
      | Option.none =>
        (⟨404, Option.some "User not found with this email address"⟩, s)
      | Option.some newOwner =>
        if newOwner.id == callerId then
          (⟨400, Option.some "You are already the owner of this list"⟩, s)
        else
          match transferTxn s callerId listId newOwner.id fail with
          | Option.some s' => (⟨200, Option.none⟩, s')
          | Option.none => (⟨500, Option.some "Internal server error"⟩, s)

/-! ## tasks router -/

/-- Route `GET /lists/:id`: the access query's WHERE clause
(`l.id = $2 AND (l.owner_id = $1 OR lm.user_id = $1)`) yields either
the list row (200) or no row, and a missing and an inaccessible list
produce the same 404 response. -/
def getListResponse (s : Store) (callerId listId : Nat) : Response :=
  match findListRow s listId with
  | Option.none => ⟨404, Option.some "List not found or access denied"⟩
  | Option.some l =>
    if l.ownerId == callerId || (findMembership s listId callerId).isSome then
      ⟨200, Option.none⟩
    else ⟨404, Option.some "List not found or access denied"⟩

/-- Route `GET /tasks/:id`: first fetches the task (404 "Task not found" when
absent), then checks list access (404 "Task not found or access
denied" when denied). -/
def getTaskResponse (s : Store) (callerId taskId : Nat) : Response :=
  match s.tasks.find? (fun t => t.id == taskId) with
  | Option.none => ⟨404, Option.some "Task not found"⟩
  | Option.some t =>
    match checkListAccess s callerId t.listId with
    | Option.none => ⟨404, Option.some "Task not found or access denied"⟩
    | Option.some _ => ⟨200, Option.none⟩

/-- Statement `INSERT INTO tags (name) VALUES ($1) ON CONFLICT (name) DO
UPDATE SET name = EXCLUDED.name RETURNING id`: returns the existing row's id
or inserts a fresh row. -/
def upsertTag (s : Store) (nm : String) : Store × Nat :=
  match s.tags.find? (fun t => t.name == nm) with
  | Option.some t => (s, t.id)
  | Option.none =>
    ({ s with
        tags := s.tags ++ [⟨s.nextTagId, nm⟩],
        nextTagId := s.nextTagId + 1 },
     s.nextTagId)

/-- Statement `INSERT INTO task_tags ... ON CONFLICT DO NOTHING`
(create-task path). -/
def linkTagCreate (s : Store) (taskId tagId : Nat) : Store :=
  if s.taskTags.any (fun tt => tt.taskId == taskId && tt.tagId == tagId) then s
  else { s with taskTags := s.taskTags ++ [⟨taskId, tagId⟩] }

/-- Statement `INSERT INTO task_tags (task_id, tag_id) VALUES ($1, $2)`, no
conflict clause (update-task path): the `(task_id, tag_id)` primary
key makes a duplicate insert fail. -/
def linkTagUpdate (s : Store) (taskId tagId : Nat) : Option Store :=
  if s.taskTags.any (fun tt => tt.taskId == taskId && tt.tagId == tagId) then
    Option.none
  else Option.some { s with taskTags := s.taskTags ++ [⟨taskId, tagId⟩] }

/-- The tag loop of `POST /tasks`: for each supplied name, upsert the
trimmed lower-cased tag and link it with ON CONFLICT DO NOTHING. -/
def createTaskTagsLoop (taskId : Nat) : Store → List String → Store
  | s, [] => s
  | s, nm :: rest =>
    match upsertTag s (normalizeTag nm) with
    | (s1, tagId) => createTaskTagsLoop taskId (linkTagCreate s1 taskId tagId) rest

/-- The tag loop of `PUT /tasks/:id`: names that are empty after
trimming are skipped (`if (tagName && tagName.trim())`); each kept
name is upserted and linked with a plain insert, which fails on a
duplicate `(task_id, tag_id)` pair. -/
def updateTaskTagsLoop (taskId : Nat) : Store → List String → Option Store
  | s, [] => Option.some s
  | s, nm :: rest =>
    if (trimString nm).data.isEmpty then updateTaskTagsLoop taskId s rest
    else
      match upsertTag s (normalizeTag nm) with
      | (s1, tagId) =>
        match linkTagUpdate s1 taskId tagId with
        | Option.none => Option.none
        | Option.some s2 => updateTaskTagsLoop taskId s2 rest

/-- Statement `INSERT INTO tasks (list_id, title, description,
priority, due_date) VALUES ...` — `completed` takes its DEFAULT
false, the id the SERIAL value. -/
def insertTaskRow (s : Store) (listId : Nat) (title : String)
    (description priority dueDate : Option String) : Store :=
  { s with
      tasks := s.tasks ++
        [⟨s.nextTaskId, listId, title, description, priority, dueDate, false⟩],
      nextTaskId := s.nextTaskId + 1 }

/-- Route `POST /tasks` (`createTask`): list-access check, then inside a
transaction insert the task (`completed` defaults to false) and run
the create-path tag loop (which cannot hit a uniqueness failure thanks
to the ON CONFLICT clauses) on the new task id. -/
def createTask (s : Store) (callerId listId : Nat) (title : String)
    (description priority dueDate : Option String)
    (tags? : Option (List String)) : Response × Store :=
  match checkListAccess s callerId listId with
  | Option.none => (⟨404, Option.some "List not found or access denied"⟩, s)
  | Option.some _ =>
    match tags? with
    | Option.some tags =>
      (⟨201, Option.none⟩,
       createTaskTagsLoop s.nextTaskId
         (insertTaskRow s listId title description priority dueDate) tags)
    | Option.none =>
      (⟨201, Option.none⟩,
       insertTaskRow s listId title description priority dueDate)

/-- Statement `UPDATE tasks SET title = $1, description = $2,
priority = $3, due_date = $4, completed = $5 WHERE id = $6`, with
`completed !== undefined ? completed : false`. -/
def writeTaskRow (s : Store) (taskId : Nat) (title : String)
    (description priority dueDate : Option String)
    (completed? : Option Bool) : Store :=
  { s with tasks := s.tasks.map (fun t' =>
      if t'.id == taskId then
        { t' with
            title := title, description := description,
            priority := priority, dueDate := dueDate,
            completed := completed?.getD false }
      else t') }

/-- Statement `DELETE FROM task_tags WHERE task_id = $1`. -/
def clearTaskLinks (s : Store) (taskId : Nat) : Store :=
  { s with taskTags := s.taskTags.filter (fun tt => !(tt.taskId == taskId)) }

/-- Route `PUT /tasks/:id` (`updateTask`): fetch the task (404), list-access
check (404), then inside a transaction rewrite the row —
`completed = completed !== undefined ? completed : false` — and, when
a tags array is supplied, delete all of the task's links and run the
update-path tag loop; a loop failure rolls the transaction back and
surfaces a 500. -/
def updateTask (s : Store) (callerId taskId : Nat) (title : String)
    (description priority dueDate : Option String)
    (completed? : Option Bool) (tags? : Option (List String)) :
    Response × Store :=
  match s.tasks.find? (fun t => t.id == taskId) with
  | Option.none => (⟨404, Option.some "Task not found"⟩, s)
  | Option.some t =>
    match checkListAccess s callerId t.listId with
    | Option.none => (⟨404, Option.some "Task not found or access denied"⟩, s)
    | Option.some _ =>
      match tags? with
      | Option.none =>
        (⟨200, Option.none⟩,
         writeTaskRow s taskId title description priority dueDate completed?)
      | Option.some tags =>
        match updateTaskTagsLoop taskId
            (clearTaskLinks
              (writeTaskRow s taskId title description priority dueDate completed?)
              taskId) tags with
        | Option.some s3 => (⟨200, Option.none⟩, s3)
        | Option.none => (⟨500, Option.some "Internal server error"⟩, s)

/-- Route `PATCH /tasks/:id/toggle` (`toggleTask`): fetch the task, check
list access, then `UPDATE tasks SET completed = $1` with the negation
of the value just read. -/
def toggleTask (s : Store) (callerId taskId : Nat) : Response × Store :=
  match s.tasks.find? (fun t => t.id == taskId) with
  | Option.none => (⟨404, Option.some "Task not found"⟩, s)
  | Option.some t =>
    match checkListAccess s callerId t.listId with
    | Option.none => (⟨404, Option.some "Task not found or access denied"⟩, s)
    | Option.some _ =>
      (⟨200, Option.none⟩,
       { s with
           tasks := s.tasks.map (fun t' =>
             if t'.id == taskId then { t' with completed := !t.completed }
             else t') })

/-- Route `PUT /tasks/subtasks/:subtaskId` (`updateSubtask`): fetch the
subtask joined with its task, check list access, then
`UPDATE subtasks SET title = $1, completed = $2` with
`completed !== undefined ? completed : subtask.completed`. -/
def updateSubtask (s : Store) (callerId subtaskId : Nat) (title : String)
    (completed? : Option Bool) : Response × Store :=
  match s.subtasks.find? (fun st => st.id == subtaskId) with
  | Option.none => (⟨404, Option.some "Subtask not found"⟩, s)
  | Option.some st =>
    match s.tasks.find? (fun t => t.id == st.taskId) with
    | Option.none => (⟨404, Option.some "Subtask not found"⟩, s)
    | Option.some t =>
      match checkListAccess s callerId t.listId with
      | Option.none =>
        (⟨404, Option.some "Subtask not found or access denied"⟩, s)
      | Option.some _ =>
        (⟨200, Option.none⟩,
         { s with
             subtasks := s.subtasks.map (fun st' =>
               if st'.id == subtaskId then
                 { st' with
                     title := title,
                     completed := completed?.getD st.completed }
               else st') })

/-- Route `PATCH /tasks/subtasks/:subtaskId/toggle` (`toggleSubtask`). -/
def toggleSubtask (s : Store) (callerId subtaskId : Nat) :
    Response × Store :=
  match s.subtasks.find? (fun st => st.id == subtaskId) with
  | Option.none => (⟨404, Option.some "Subtask not found"⟩, s)
  | Option.some st =>
    match s.tasks.find? (fun t => t.id == st.taskId) with
    | Option.none => (⟨404, Option.some "Subtask not found"⟩, s)
    | Option.some t =>
      match checkListAccess s callerId t.listId with
      | Option.none =>
        (⟨404, Option.some "Subtask not found or access denied"⟩, s)
      | Option.some _ =>
        (⟨200, Option.none⟩,
         { s with
             subtasks := s.subtasks.map (fun st' =>
               if st'.id == subtaskId then
                 { st' with completed := !st.completed }
               else st') })

/-- Route `DELETE /tasks/:id` (`deleteTask`): fetch the task, check
list access, then `DELETE FROM tasks WHERE id = $1`; the schema's ON
DELETE CASCADE removes the task's subtasks and its task_tags links. -/
def deleteTask (s : Store) (callerId taskId : Nat) : Response × Store :=
  match s.tasks.find? (fun t => t.id == taskId) with
  | Option.none => (⟨404, Option.some "Task not found"⟩, s)
  | Option.some t =>
    match checkListAccess s callerId t.listId with
    | Option.none => (⟨404, Option.some "Task not found or access denied"⟩, s)
    | Option.some _ =>
      (⟨200, Option.none⟩,
       { s with
           tasks := s.tasks.filter (fun x => !(x.id == taskId)),
           subtasks := s.subtasks.filter (fun x => !(x.taskId == taskId)),
           taskTags := s.taskTags.filter (fun x => !(x.taskId == taskId)) })

/-- Route `POST /tasks/:taskId/subtasks` (`createSubtask`): fetch the
task, check list access, then `INSERT INTO subtasks (task_id, title)`
— `completed` takes its DEFAULT false. -/
def createSubtask (s : Store) (callerId taskId : Nat) (title : String) :
    Response × Store :=
  match s.tasks.find? (fun t => t.id == taskId) with
  | Option.none => (⟨404, Option.some "Task not found"⟩, s)
  | Option.some t =>
    match checkListAccess s callerId t.listId with
    | Option.none => (⟨404, Option.some "Task not found or access denied"⟩, s)
    | Option.some _ =>
      (⟨201, Option.none⟩,
       { s with
           subtasks := s.subtasks ++ [⟨s.nextSubtaskId, taskId, title, false⟩],
           nextSubtaskId := s.nextSubtaskId + 1 })

/-- Route `DELETE /tasks/subtasks/:subtaskId` (`deleteSubtask`): fetch
the subtask joined with its task, check list access, then
`DELETE FROM subtasks WHERE id = $1`. -/
def deleteSubtask (s : Store) (callerId subtaskId : Nat) :
    Response × Store :=
  match s.subtasks.find? (fun st => st.id == subtaskId) with
  | Option.none => (⟨404, Option.some "Subtask not found"⟩, s)
  | Option.some st =>
    match s.tasks.find? (fun t => t.id == st.taskId) with
    | Option.none => (⟨404, Option.some "Subtask not found"⟩, s)
    | Option.some t =>
      match checkListAccess s callerId t.listId with
      | Option.none =>
        (⟨404, Option.some "Subtask not found or access denied"⟩, s)
      | Option.some _ =>
        (⟨200, Option.none⟩,
         { s with subtasks := s.subtasks.filter (fun x => !(x.id == subtaskId)) })

/-! ## Reachable states and invariants -/

/-- A fresh deployment: registered users, no lists or list content yet
(sequences start at 1, as SERIAL does). -/
def Store.initial (users : List UserRow) : Store :=
  ⟨users, [], [], [], [], [], [], 1, 1, 1, 1⟩

/-- States reachable from a fresh deployment through the public list
and membership operations. -/
inductive Reachable : Store → Prop where
  | init (users : List UserRow) : Reachable (Store.initial users)
  | stepCreateList {s : Store} (uid : Nat) (name : String) :
      Reachable s → Reachable (createList s uid name).2
  | stepAddMember {s : Store} (c lid : Nat) (em : String) (r : MemberRole) :
      Reachable s → Reachable (addMember s c lid em r).2
  | stepUpdateMemberRole {s : Store} (c lid t : Nat) (r? : Option String) :
      Reachable s → Reachable (updateMemberRole s c lid t r?).2
  | stepRemoveMember {s : Store} (c lid t : Nat) :
      Reachable s → Reachable (removeMember s c lid t).2
  | stepLeaveList {s : Store} (c lid : Nat) :
      Reachable s → Reachable (leaveList s c lid).2
  | stepTransferOwnership {s : Store} (c lid : Nat) (em? : Option String)
      (fail : TxnStep → Bool) :
      Reachable s → Reachable (transferOwnership s c lid em? fail).2

/-- The owner of a list is never also a membership row of that list. -/
def OwnerNotMember (s : Store) : Prop :=
  ∀ l ∈ s.lists, ∀ m ∈ s.listMembers, m.listId = l.id → m.userId ≠ l.ownerId

/-- Every list id in use is below the SERIAL sequence value, so a
freshly created list can collide with no existing membership row. -/
def IdsBounded (s : Store) : Prop :=
  (∀ l ∈ s.lists, l.id < s.nextListId) ∧
  (∀ m ∈ s.listMembers, m.listId < s.nextListId)

/-- Combined induction invariant for reachable stores. -/
def GoodStore (s : Store) : Prop := IdsBounded s ∧ OwnerNotMember s

/-! ## Concrete sample stores used to instantiate the theorems -/

/-- Two registered users; user 1 owns list 1; user 2 is an admin
member of list 1; list 1 holds task 1 (completed) with subtask 1. -/
def sampleStore : Store :=
  { users := [⟨1, "alice", "alice@example.com"⟩, ⟨2, "bob", "bob@example.com"⟩]
    lists := [⟨1, "Groceries", 1⟩]
    listMembers := [⟨1, 2, MemberRole.admin⟩]
    tasks := [⟨1, 1, "buy milk", Option.none, Option.none, Option.none, true⟩]
    subtasks := [⟨1, 1, "find store", false⟩]
    tags := []
    taskTags := []
    nextListId := 2
    nextTaskId := 2
    nextSubtaskId := 2
    nextTagId := 1 }

/-- A store in which task 1 and subtask 5 do not exist while task 2
and its subtask 1 exist on a list that user 1 cannot access (owned by
user 2, no membership). -/
def hiddenStore : Store :=
  { users := [⟨1, "alice", "alice@example.com"⟩, ⟨2, "bob", "bob@example.com"⟩]
    lists := [⟨1, "Private", 2⟩]
    listMembers := []
    tasks := [⟨2, 1, "secret", Option.none, Option.none, Option.none, false⟩]
    subtasks := [⟨1, 2, "hidden sub", false⟩]
    tags := []
    taskTags := []
    nextListId := 2
    nextTaskId := 3
    nextSubtaskId := 2
    nextTagId := 1 }

/-- User 1 alone owns list 1, which holds the untagged task 1. -/
def tagStore : Store :=
  { users := [⟨1, "alice", "alice@example.com"⟩]
    lists := [⟨1, "Work", 1⟩]
    listMembers := []
    tasks := [⟨1, 1, "write report", Option.none, Option.none, Option.none, false⟩]
    subtasks := []
    tags := []
    taskTags := []
    nextListId := 2
    nextTaskId := 2
    nextSubtaskId := 1
    nextTagId := 1 }

/-- Failure oracle that makes exactly the final `UPDATE lists` step of
the ownership transfer fail. -/
def failAtUpdOwner : TxnStep → Bool :=
  fun st => st == TxnStep.updOwnerId

/-- The list row of `sampleStore`. -/
def sampleList : ListRow := ⟨1, "Groceries", 1⟩

/-! ## Helper lemmas -/

/-- A successful `findListRow` returns a stored row with the requested
id. -/
theorem findListRow_eq_some {s : Store} {lid : Nat} {l : ListRow}
    (h : findListRow s lid = Option.some l) : l ∈ s.lists ∧ l.id = lid := by
  unfold findListRow at h
  refine ⟨List.mem_of_find?_eq_some h, ?_⟩
  simpa using List.find?_some h

/-- A membership role never renders as the owner role. -/
theorem toRole_ne_owner (r : MemberRole) : r.toRole ≠ Role.owner := by
  cases r <;> simp [MemberRole.toRole]

/-! ## C1 -/

/-- C1: for every principal and every list present in the store, the
effective role is `owner` iff the list's `ownerId` equals the
principal's id; otherwise it is the membership row's role when such a
row exists and `none` otherwise; and exactly one of the four roles
holds. -/
theorem effectiveRole_characterization (s : Store) (p : Nat) (l : ListRow)
    (hl : l ∈ s.lists) :
    (effectiveRole s p l = Role.owner ↔ l.ownerId = p) ∧
    (l.ownerId ≠ p →
      (∀ m, findMembership s l.id p = Option.some m →
        effectiveRole s p l = m.role.toRole) ∧
      (findMembership s l.id p = Option.none →
        effectiveRole s p l = Role.none)) ∧
    (∃! r : Role, effectiveRole s p l = r) := by
  refine ⟨⟨?_, ?_⟩, ?_, ⟨effectiveRole s p l, rfl, fun y hy => hy.symm⟩⟩
  · intro h
    by_contra hne
    unfold effectiveRole at h
    rw [if_neg (by simpa using hne)] at h
    cases hm : findMembership s l.id p with
    | none => rw [hm] at h; cases h
    | some m => rw [hm] at h; exact toRole_ne_owner m.role h
  · intro h
    unfold effectiveRole
    rw [if_pos (by simpa using h)]
  · intro hne
    constructor
    · intro m hm
      unfold effectiveRole
      rw [if_neg (by simpa using hne), hm]
    · intro hm
      unfold effectiveRole
      rw [if_neg (by simpa using hne), hm]

/-- Witness for C1: instantiated at `sampleStore`, principal 2 and its
stored list. -/
theorem effectiveRole_characterization_witness :
    sampleList ∈ sampleStore.lists ∧
    ((effectiveRole sampleStore 2 sampleList = Role.owner ↔
        sampleList.ownerId = 2) ∧
     (sampleList.ownerId ≠ 2 →
       (∀ m, findMembership sampleStore sampleList.id 2 = Option.some m →
         effectiveRole sampleStore 2 sampleList = m.role.toRole) ∧
       (findMembership sampleStore sampleList.id 2 = Option.none →
         effectiveRole sampleStore 2 sampleList = Role.none)) ∧
     (∃! r : Role, effectiveRole sampleStore 2 sampleList = r)) :=
  ⟨by decide, effectiveRole_characterization sampleStore 2 sampleList (by decide)⟩

/-! ## C2 -/

/-- C2: transfer-ownership is atomic — when a failure is injected at
any of the three transactional steps (delete the new owner's
membership row, insert the previous owner as admin, update the list's
`ownerId`), the call does not succeed and a post-call read sees the
lists table and the whole membership table exactly as before the
call. -/
theorem transferOwnership_atomic (s : Store) (callerId listId : Nat)
    (email? : Option String) (fail : TxnStep → Bool)
    (hfail : fail TxnStep.delMembership = true ∨
      fail TxnStep.insMembership = true ∨ fail TxnStep.updOwnerId = true) :
    (transferOwnership s callerId listId email? fail).1.status ≠ 200 ∧
    (transferOwnership s callerId listId email? fail).2.lists = s.lists ∧
    (transferOwnership s callerId listId email? fail).2.listMembers =
      s.listMembers := by
  have htxn : ∀ nid, transferTxn s callerId listId nid fail = Option.none := by
    intro nid
    unfold transferTxn
    rcases hfail with h | h | h
    · simp [h]
    · by_cases hb : fail TxnStep.delMembership = true
      · simp [hb]
      · simp [hb, h]
    · by_cases hb : fail TxnStep.delMembership = true
      · simp [hb]
      · simp [hb, h]
  unfold transferOwnership
  split
  · exact ⟨by show (400 : Nat) ≠ 200; decide, rfl, rfl⟩
  split
  · exact ⟨by show (403 : Nat) ≠ 200; decide, rfl, rfl⟩
  split
  · exact ⟨by show (404 : Nat) ≠ 200; decide, rfl, rfl⟩
  split
  · exact ⟨by show (400 : Nat) ≠ 200; decide, rfl, rfl⟩
  split
  · next heq => rw [htxn] at heq; cases heq
  · exact ⟨by show (500 : Nat) ≠ 200; decide, rfl, rfl⟩

/-- Witness for C2: user 1 transfers list 1 of `sampleStore` to user 2
while the final UPDATE fails. -/
theorem transferOwnership_atomic_witness :
    (failAtUpdOwner TxnStep.delMembership = true ∨
      failAtUpdOwner TxnStep.insMembership = true ∨
      failAtUpdOwner TxnStep.updOwnerId = true) ∧
    ((transferOwnership sampleStore 1 1 (Option.some "bob@example.com")
        failAtUpdOwner).1.status ≠ 200 ∧
     (transferOwnership sampleStore 1 1 (Option.some "bob@example.com")
        failAtUpdOwner).2.lists = sampleStore.lists ∧
     (transferOwnership sampleStore 1 1 (Option.some "bob@example.com")
        failAtUpdOwner).2.listMembers = sampleStore.listMembers) :=
  ⟨by decide,
   transferOwnership_atomic sampleStore 1 1 (Option.some "bob@example.com")
     failAtUpdOwner (by decide)⟩

/-! ## C3 -/

/-- C3 counterexample: in `hiddenStore`, task 1 does not exist while
task 2 exists on a list principal 1 cannot access, yet the two 404
responses carry different error bodies — the cases are
distinguishable, so the responses are not identical as claimed. -/
theorem getTask_notFound_vs_denied_differ :
    hiddenStore.tasks.find? (fun t => t.id == 1) = Option.none ∧
    (∃ t, hiddenStore.tasks.find? (fun t' => t'.id == 2) = Option.some t ∧
      checkListAccess hiddenStore 1 t.listId = Option.none) ∧
    getTaskResponse hiddenStore 1 1 ≠ getTaskResponse hiddenStore 1 2 :=
  ⟨by decide,
   ⟨⟨2, 1, "secret", Option.none, Option.none, Option.none, false⟩,
    by decide, by decide⟩,
   by decide⟩

/-- C3 (amended): for tasks and for subtasks the missing case and the
exists-but-denied case both return status 404, but with different
error bodies ("Task not found" vs "Task not found or access denied",
"Subtask not found" vs "Subtask not found or access denied"); for
lists the two cases produce the identical response. -/
theorem notFound_vs_denied_responses (s : Store) (uid rid : Nat)
    (ttl : String) (cb? : Option Bool) :
    ((s.tasks.find? (fun t => t.id == rid) = Option.none →
        getTaskResponse s uid rid = ⟨404, Option.some "Task not found"⟩) ∧
     (∀ t, s.tasks.find? (fun t' => t'.id == rid) = Option.some t →
        checkListAccess s uid t.listId = Option.none →
        getTaskResponse s uid rid =
          ⟨404, Option.some "Task not found or access denied"⟩)) ∧
    ((findListRow s rid = Option.none →
        getListResponse s uid rid =
          ⟨404, Option.some "List not found or access denied"⟩) ∧
     (∀ l, findListRow s rid = Option.some l → l.ownerId ≠ uid →
        findMembership s rid uid = Option.none →
        getListResponse s uid rid =
          ⟨404, Option.some "List not found or access denied"⟩)) ∧
    ((s.subtasks.find? (fun x => x.id == rid) = Option.none →
        (toggleSubtask s uid rid).1 =
          ⟨404, Option.some "Subtask not found"⟩ ∧
        (updateSubtask s uid rid ttl cb?).1 =
          ⟨404, Option.some "Subtask not found"⟩ ∧
        (deleteSubtask s uid rid).1 =
          ⟨404, Option.some "Subtask not found"⟩) ∧
     (∀ st t, s.subtasks.find? (fun x => x.id == rid) = Option.some st →
        s.tasks.find? (fun x => x.id == st.taskId) = Option.some t →
        checkListAccess s uid t.listId = Option.none →
        (toggleSubtask s uid rid).1 =
          ⟨404, Option.some "Subtask not found or access denied"⟩ ∧
        (updateSubtask s uid rid ttl cb?).1 =
          ⟨404, Option.some "Subtask not found or access denied"⟩ ∧
        (deleteSubtask s uid rid).1 =
          ⟨404, Option.some "Subtask not found or access denied"⟩)) := by
  refine ⟨⟨?_, ?_⟩, ⟨?_, ?_⟩, ⟨?_, ?_⟩⟩
  · intro h
    unfold getTaskResponse
    simp only [h]
  · intro t ht hacc
    unfold getTaskResponse
    simp only [ht, hacc]
  · intro h
    unfold getListResponse
    simp only [h]
  · intro l hl hown hm
    unfold getListResponse
    simp only [hl, hm]
    simp [hown]
  · intro h
    refine ⟨?_, ?_, ?_⟩
    · unfold toggleSubtask
      simp only [h]
    · unfold updateSubtask
      simp only [h]
    · unfold deleteSubtask
      simp only [h]
  · intro st t hst ht hacc
    refine ⟨?_, ?_, ?_⟩
    · unfold toggleSubtask
      simp only [hst, ht, hacc]
    · unfold updateSubtask
      simp only [hst, ht, hacc]
    · unfold deleteSubtask
      simp only [hst, ht, hacc]

/-- Witness for C3 (amended): both task cases and both subtask cases
of `hiddenStore` return status 404 with the respective bodies. -/
theorem notFound_vs_denied_responses_witness :
    getTaskResponse hiddenStore 1 1 = ⟨404, Option.some "Task not found"⟩ ∧
    getTaskResponse hiddenStore 1 2 =
      ⟨404, Option.some "Task not found or access denied"⟩ ∧
    (toggleSubtask hiddenStore 1 5).1 =
      ⟨404, Option.some "Subtask not found"⟩ ∧
    (toggleSubtask hiddenStore 1 1).1 =
      ⟨404, Option.some "Subtask not found or access denied"⟩ :=
  ⟨(notFound_vs_denied_responses hiddenStore 1 1 "x" Option.none).1.1
     (by decide),
   (notFound_vs_denied_responses hiddenStore 1 2 "x" Option.none).1.2
     ⟨2, 1, "secret", Option.none, Option.none, Option.none, false⟩
     (by decide) (by decide),
   ((notFound_vs_denied_responses hiddenStore 1 5 "x" Option.none).2.2.1
     (by decide)).1,
   ((notFound_vs_denied_responses hiddenStore 1 1 "x" Option.none).2.2.2
     ⟨1, 2, "hidden sub", false⟩
     ⟨2, 1, "secret", Option.none, Option.none, Option.none, false⟩
     (by decide) (by decide) (by decide)).1⟩

/-! ## C5 -/

/-- C5 counterexample: in `tagStore` the owner of list 1 is user 1 and
the caller (the owner, hence permitted) targets the owner with a valid
role update; the call fails with 404 ("User is not a member of this
list"), not with the claimed 400-class `InvalidOperation`. -/
theorem updateMemberRole_owner_is_404 :
    checkListPermission tagStore 1 1 false = true ∧
    (updateMemberRole tagStore 1 1 1 (Option.some "admin")).1 =
      ⟨404, Option.some "User is not a member of this list"⟩ ∧
    (updateMemberRole tagStore 1 1 1 (Option.some "admin")).1.status ≠ 400 := by
  exact ⟨by decide, by decide, by decide⟩

/-- C5 (amended): targeting the list's owner, `removeMember` fails
with the 400 `InvalidOperation` ("Cannot remove the list owner") and
no row changes, while `updateMemberRole` — which has no owner check —
falls through its membership lookup and fails with 404 ("User is not
a member of this list"), again without mutating any row, because the
owner never has a membership row. -/
theorem owner_remove_and_roleUpdate (s : Store) (c lid : Nat)
    (l : ListRow) (r : String)
    (hl : l ∈ s.lists) (hlid : l.id = lid)
    (hperm : checkListPermission s c lid false = true)
    (hinv : ∀ m ∈ s.listMembers, m.listId = lid → m.userId ≠ l.ownerId)
    (hr : r = "member" ∨ r = "admin") :
    removeMember s c lid l.ownerId =
      (⟨400, Option.some "Cannot remove the list owner"⟩, s) ∧
    updateMemberRole s c lid l.ownerId (Option.some r) =
      (⟨404, Option.some "User is not a member of this list"⟩, s) := by
  have hown : s.lists.any (fun x => x.id == lid && x.ownerId == l.ownerId) = true := by
    rw [List.any_eq_true]
    exact ⟨l, hl, by simp [hlid]⟩
  have hmem : findMembership s lid l.ownerId = Option.none := by
    unfold findMembership
    rw [List.find?_eq_none]
    intro m hm
    simp only [Bool.and_eq_true, beq_iff_eq, not_and]
    intro h1
    exact hinv m hm h1
  constructor
  · unfold removeMember
    simp [hperm, hown]
  · rcases hr with rfl | rfl <;>
      · unfold updateMemberRole
        simp [hperm, hmem]

/-- Witness for C5 (amended), at `tagStore` with its owner-owned
list 1. -/
theorem owner_remove_and_roleUpdate_witness :
    removeMember tagStore 1 1 1 =
      (⟨400, Option.some "Cannot remove the list owner"⟩, tagStore) ∧
    updateMemberRole tagStore 1 1 1 (Option.some "member") =
      (⟨404, Option.some "User is not a member of this list"⟩, tagStore) :=
  owner_remove_and_roleUpdate tagStore 1 1 ⟨1, "Work", 1⟩ "member"
    (by decide) (by decide) (by decide) (by decide) (Or.inl rfl)

/-! ## C6 -/

/-- C6: the duplicated tag list ["work", "work"] succeeds on
`createTask` (its link insert carries ON CONFLICT DO NOTHING) and
leaves exactly one Tag row named "work" with exactly one link, but
makes `updateTask` fail with a 500 — its plain link insert violates
the `(task_id, tag_id)` primary key and the transaction is rolled
back, leaving the store untouched. -/
theorem duplicate_tags_create_ok_update_fails :
    ((createTask tagStore 1 1 "t2" Option.none Option.none Option.none
        (Option.some ["work", "work"])).1.status = 201 ∧
     (createTask tagStore 1 1 "t2" Option.none Option.none Option.none
        (Option.some ["work", "work"])).2.tags = [⟨1, "work"⟩] ∧
     (createTask tagStore 1 1 "t2" Option.none Option.none Option.none
        (Option.some ["work", "work"])).2.taskTags = [⟨2, 1⟩]) ∧
    ((updateTask tagStore 1 1 "t" Option.none Option.none Option.none
        Option.none (Option.some ["work", "work"])).1.status = 500 ∧
     (updateTask tagStore 1 1 "t" Option.none Option.none Option.none
        Option.none (Option.some ["work", "work"])).2 = tagStore) := by
  exact ⟨⟨by decide, by decide, by decide⟩, by decide, by decide⟩

/-! ## C7 -/

/-- Upserting a tag touches only the `tags` table and its sequence. -/
theorem upsertTag_frame (s : Store) (nm : String) :
    (upsertTag s nm).1.tasks = s.tasks ∧ (upsertTag s nm).1.subtasks = s.subtasks := by
  unfold upsertTag
  split <;> exact ⟨rfl, rfl⟩

/-- A successful plain link insert touches only `task_tags`. -/
theorem linkTagUpdate_frame {s s' : Store} {a b : Nat}
    (h : linkTagUpdate s a b = Option.some s') :
    s'.tasks = s.tasks ∧ s'.subtasks = s.subtasks := by
  unfold linkTagUpdate at h
  split at h
  · cases h
  · cases h; exact ⟨rfl, rfl⟩

/-- The update-path tag loop, when it succeeds, changes neither the
`tasks` nor the `subtasks` table. -/
theorem updateTaskTagsLoop_frame (taskId : Nat) :
    ∀ (tags : List String) (s s' : Store),
      updateTaskTagsLoop taskId s tags = Option.some s' →
      s'.tasks = s.tasks ∧ s'.subtasks = s.subtasks := by
  intro tags
  induction tags with
  | nil =>
    intro s s' h
    unfold updateTaskTagsLoop at h
    cases h
    exact ⟨rfl, rfl⟩
  | cons nm rest ih =>
    intro s s' h
    unfold updateTaskTagsLoop at h
    split at h
    · exact ih s s' h
    · have h' : (match linkTagUpdate (upsertTag s (normalizeTag nm)).1 taskId
            (upsertTag s (normalizeTag nm)).2 with
          | Option.none => Option.none
          | Option.some s2 => updateTaskTagsLoop taskId s2 rest) =
          Option.some s' := h
      cases hlink : linkTagUpdate (upsertTag s (normalizeTag nm)).1 taskId
          (upsertTag s (normalizeTag nm)).2 with
      | none =>
        rw [hlink] at h'
        exact Option.noConfusion h'
      | some s2 =>
        rw [hlink] at h'
        have h1 := linkTagUpdate_frame hlink
        have h2 := upsertTag_frame s (normalizeTag nm)
        have h3 := ih s2 s' h'
        exact ⟨h3.1.trans (h1.1.trans h2.1), h3.2.trans (h1.2.trans h2.2)⟩

/-- The create-path tag loop never touches the `subtasks` table. -/
theorem createTaskTagsLoop_subtasks (taskId : Nat) :
    ∀ (tags : List String) (s : Store),
      (createTaskTagsLoop taskId s tags).subtasks = s.subtasks := by
  intro tags
  induction tags with
  | nil => intro s; rfl
  | cons nm rest ih =>
    intro s
    show (createTaskTagsLoop taskId
      (linkTagCreate (upsertTag s (normalizeTag nm)).1 taskId
        (upsertTag s (normalizeTag nm)).2) rest).subtasks = s.subtasks
    rw [ih]
    unfold linkTagCreate
    split
    · exact (upsertTag_frame s (normalizeTag nm)).2
    · exact (upsertTag_frame s (normalizeTag nm)).2

/-- C7 counterexample: task 1 of `sampleStore` has `completed = true`;
an `updateTask` call that omits `completed` succeeds and leaves the
task with `completed = false` — the value was not preserved. -/
theorem updateTask_omitted_completed_resets :
    sampleStore.tasks.find? (fun t => t.id == 1) =
      Option.some ⟨1, 1, "buy milk", Option.none, Option.none, Option.none, true⟩ ∧
    (updateTask sampleStore 1 1 "buy milk" Option.none Option.none Option.none
        Option.none Option.none).1.status = 200 ∧
    (updateTask sampleStore 1 1 "buy milk" Option.none Option.none Option.none
        Option.none Option.none).2.tasks.find? (fun t => t.id == 1) =
      Option.some ⟨1, 1, "buy milk", Option.none, Option.none, Option.none, false⟩ := by
  exact ⟨by decide, by decide, by decide⟩

/-- C7 (amended): an `updateTask` call whose body omits `completed`
resets the task's `completed` to false whenever it succeeds (rather
than preserving it); no operation on a subtask (create, update,
toggle, delete) changes any task row, so never the parent task's
`completed`; and no operation on a task changes any surviving subtask
row: create, update and toggle leave the subtasks table unchanged,
and `deleteTask` only cascade-removes rows, every remaining subtask
row being an unchanged original row. -/
theorem completion_frame (s : Store) (c tid sid lid ptid : Nat)
    (ttl : String) (d p dd : Option String) (cb? : Option Bool)
    (tags? : Option (List String)) :
    ((updateTask s c tid ttl d p dd Option.none tags?).1.status = 200 →
      ∀ t' ∈ (updateTask s c tid ttl d p dd Option.none tags?).2.tasks,
        t'.id = tid → t'.completed = false) ∧
    ((createSubtask s c ptid ttl).2.tasks = s.tasks ∧
     (updateSubtask s c sid ttl cb?).2.tasks = s.tasks ∧
     (toggleSubtask s c sid).2.tasks = s.tasks ∧
     (deleteSubtask s c sid).2.tasks = s.tasks) ∧
    ((createTask s c lid ttl d p dd tags?).2.subtasks = s.subtasks ∧
     (updateTask s c tid ttl d p dd cb? tags?).2.subtasks = s.subtasks ∧
     (toggleTask s c tid).2.subtasks = s.subtasks ∧
     (∀ st' ∈ (deleteTask s c tid).2.subtasks, st' ∈ s.subtasks)) := by
  refine ⟨?_, ⟨?_, ?_, ?_, ?_⟩, ⟨?_, ?_, ?_, ?_⟩⟩
  · unfold updateTask
    split
    · intro h200; exact absurd h200 (show ¬(404 : Nat) = 200 by decide)
    split
    · intro h200; exact absurd h200 (show ¬(404 : Nat) = 200 by decide)
    split
    · intro _ t' ht' htid
      rcases List.mem_map.1 ht' with ⟨t0, ht0, rfl⟩
      by_cases hid : (t0.id == tid) = true
      · simp [hid]
      · rw [if_neg hid] at htid
        exact absurd htid (by simpa using hid)
    · split
      · next s3 hs3 =>
        intro _ t' ht' htid
        have hframe := (updateTaskTagsLoop_frame tid _ _ _ hs3).1
        rw [hframe] at ht'
        rcases List.mem_map.1 ht' with ⟨t0, ht0, rfl⟩
        by_cases hid : (t0.id == tid) = true
        · simp [hid]
        · rw [if_neg hid] at htid
          exact absurd htid (by simpa using hid)
      · intro h200; exact absurd h200 (show ¬(500 : Nat) = 200 by decide)
  · unfold createSubtask
    split
    · rfl
    split
    · rfl
    · rfl
  · unfold updateSubtask
    split
    · rfl
    split
    · rfl
    split
    · rfl
    · rfl
  · unfold toggleSubtask
    split
    · rfl
    split
    · rfl
    split
    · rfl
    · rfl
  · unfold deleteSubtask
    split
    · rfl
    split
    · rfl
    split
    · rfl
    · rfl
  · unfold createTask
    split
    · rfl
    split
    · exact createTaskTagsLoop_subtasks _ _ _
    · rfl
  · unfold updateTask
    split
    · rfl
    split
    · rfl
    split
    · rfl
    · split
      · next s3 hs3 =>
        exact (updateTaskTagsLoop_frame tid _ _ _ hs3).2
      · rfl
  · unfold toggleTask
    split
    · rfl
    split
    · rfl
    · rfl
  · unfold deleteTask
    split
    · exact fun st' h => h
    split
    · exact fun st' h => h
    · exact fun st' h => (List.mem_filter.1 h).1

/-- Witness for C7 (amended), instantiated at `sampleStore`. -/
theorem completion_frame_witness :
    (∀ t' ∈ (updateTask sampleStore 1 1 "buy milk" Option.none Option.none
        Option.none Option.none Option.none).2.tasks,
      t'.id = 1 → t'.completed = false) ∧
    (deleteSubtask sampleStore 1 1).2.tasks = sampleStore.tasks ∧
    (∀ st' ∈ (deleteTask sampleStore 1 1).2.subtasks,
      st' ∈ sampleStore.subtasks) :=
  ⟨(completion_frame sampleStore 1 1 1 1 1 "buy milk" Option.none Option.none
      Option.none Option.none Option.none).1 (by decide),
   (completion_frame sampleStore 1 1 1 1 1 "buy milk" Option.none Option.none
      Option.none Option.none Option.none).2.1.2.2.2,
   (completion_frame sampleStore 1 1 1 1 1 "buy milk" Option.none Option.none
      Option.none Option.none Option.none).2.2.2.2.2⟩

/-! ## C8 -/

/-- Mapping a row-updating function that does not disturb the search
key maps the result of `find?`. -/
theorem find?_map_pres {α : Type} (p : α → Bool) (f : α → α)
    (hp : ∀ a, p (f a) = p a) :
    ∀ {xs : List α} {a : α}, xs.find? p = Option.some a →
      (xs.map f).find? p = Option.some (f a) := by
  intro xs
  induction xs with
  | nil => intro a h; cases h
  | cons x rest ih =>
    intro a h
    by_cases hx : p x = true
    · rw [List.find?_cons_of_pos _ hx] at h
      injection h with h
      subst h
      rw [List.map_cons, List.find?_cons_of_pos _ ((hp x).trans hx)]
    · rw [List.find?_cons_of_neg _ hx] at h
      rw [List.map_cons, List.find?_cons_of_neg _ (by rw [hp x]; exact hx)]
      exact ih h

/-- Reduction of a successful `toggleTask` call: the handler answers
200 and rewrites every task with the requested id to carry the
negation of the `completed` value it just read. -/
theorem toggleTask_red (s : Store) (c tid : Nat) (T : TaskRow)
    (a : Nat × Option MemberRole)
    (hT : s.tasks.find? (fun x => x.id == tid) = Option.some T)
    (hacc : checkListAccess s c T.listId = Option.some a) :
    toggleTask s c tid = (⟨200, Option.none⟩,
      { s with tasks := s.tasks.map (fun t0 : TaskRow =>
          if t0.id == tid then { t0 with completed := !T.completed }
          else t0) }) := by
  unfold toggleTask
  simp only [hT, hacc]

/-- C8: `toggleTask` is an involution on `completed` — one call flips
the stored task's `completed` to its negation leaving every other
field unchanged, and a second call restores the tasks table exactly to
its pre-call state. -/
theorem toggleTask_involution (s : Store) (c tid : Nat) (T : TaskRow)
    (hT : s.tasks.find? (fun x => x.id == tid) = Option.some T)
    (huniq : ∀ t ∈ s.tasks, t.id = tid → t = T)
    (hacc : checkListAccess s c T.listId ≠ Option.none) :
    (toggleTask s c tid).1.status = 200 ∧
    (toggleTask s c tid).2.tasks.find? (fun x => x.id == tid) =
      Option.some { T with completed := !T.completed } ∧
    (toggleTask (toggleTask s c tid).2 c tid).2.tasks = s.tasks := by
  obtain ⟨a, hacc'⟩ : ∃ a, checkListAccess s c T.listId = Option.some a := by
    cases h : checkListAccess s c T.listId with
    | none => exact absurd h hacc
    | some a => exact ⟨a, rfl⟩
  have hTbeq : (T.id == tid) = true := by
    have := List.find?_some hT
    simpa using this
  have hpres : ∀ t' : TaskRow,
      (((fun t0 : TaskRow => if t0.id == tid then
          { t0 with completed := !T.completed } else t0) t').id == tid) =
        (t'.id == tid) := by
    intro t'
    by_cases h : (t'.id == tid) = true <;> simp [h]
  have hredA := toggleTask_red s c tid T a hT hacc'
  have hfT : (fun t0 : TaskRow => if t0.id == tid then
      { t0 with completed := !T.completed } else t0) T =
      { T with completed := !T.completed } := by
    simp [hTbeq]
  have hfind1 : (toggleTask s c tid).2.tasks.find? (fun x => x.id == tid) =
      Option.some { T with completed := !T.completed } := by
    rw [hredA]
    have := find?_map_pres (fun x : TaskRow => x.id == tid)
      (fun t0 : TaskRow => if t0.id == tid then
        { t0 with completed := !T.completed } else t0) hpres hT
    rw [hfT] at this
    exact this
  refine ⟨by rw [hredA], hfind1, ?_⟩
  have hacc2 : checkListAccess (toggleTask s c tid).2 c
      ({ T with completed := !T.completed } : TaskRow).listId =
      Option.some a := by
    rw [hredA]
    exact hacc'
  have hredB := toggleTask_red ((toggleTask s c tid).2) c tid
    { T with completed := !T.completed } a hfind1 hacc2
  rw [hredB]
  show (toggleTask s c tid).2.tasks.map _ = s.tasks
  rw [hredA]
  show (s.tasks.map _).map _ = s.tasks
  rw [List.map_map]
  have hid : ∀ t ∈ s.tasks,
      ((fun t0 : TaskRow => if t0.id == tid then
          { t0 with completed := !({ T with completed := !T.completed } :
            TaskRow).completed } else t0) ∘
        (fun t0 : TaskRow => if t0.id == tid then
          { t0 with completed := !T.completed } else t0)) t = id t := by
    intro t ht
    by_cases h : (t.id == tid) = true
    · have hTt : t = T := huniq t ht (by simpa using h)
      subst hTt
      simp [h, Function.comp]
    · simp [h, Function.comp]
  rw [List.map_congr_left hid, List.map_id]

/-- Witness for C8 at `sampleStore`: toggling completed task 1 twice
restores the tasks table. -/
theorem toggleTask_involution_witness :
    (toggleTask sampleStore 1 1).1.status = 200 ∧
    (toggleTask sampleStore 1 1).2.tasks.find? (fun x => x.id == 1) =
      Option.some ⟨1, 1, "buy milk", Option.none, Option.none, Option.none,
        !true⟩ ∧
    (toggleTask (toggleTask sampleStore 1 1).2 1 1).2.tasks =
      sampleStore.tasks :=
  toggleTask_involution sampleStore 1 1
    ⟨1, 1, "buy milk", Option.none, Option.none, Option.none, true⟩
    (by decide) (by decide) (by decide)

/-! ## C9 -/

/-- C9: for a permitted caller, `addMember` resolves the target by
email and fails with 404 when no user carries the email, fails with
409 when the target is already the list's owner or already has a
membership row — in every failure case the store is unchanged — and
otherwise inserts exactly the one membership row `(listId, user,
role)`. -/
theorem addMember_cases (s : Store) (c lid : Nat) (em : String)
    (r : MemberRole)
    (hperm : checkListPermission s c lid false = true) :
    (findUserByEmail s em = Option.none →
      addMember s c lid em r =
        (⟨404, Option.some "User not found with this email address"⟩, s)) ∧
    (∀ u, findUserByEmail s em = Option.some u →
      (s.lists.any (fun l => l.id == lid && l.ownerId == u.id) = true →
        addMember s c lid em r =
          (⟨409, Option.some "User is already the owner of this list"⟩, s)) ∧
      (s.lists.any (fun l => l.id == lid && l.ownerId == u.id) = false →
        (∀ m, findMembership s lid u.id = Option.some m →
          addMember s c lid em r =
            (⟨409, Option.some "User is already a member of this list"⟩, s)) ∧
        (findMembership s lid u.id = Option.none →
          addMember s c lid em r = (⟨201, Option.none⟩,
            { s with listMembers := ⟨lid, u.id, r⟩ :: s.listMembers })))) := by
  refine ⟨?_, ?_⟩
  · intro h
    unfold addMember
    simp [hperm, h]
  · intro u hu
    refine ⟨?_, ?_⟩
    · intro hany
      unfold addMember
      simp [hperm, hu, hany]
    · intro hany
      refine ⟨?_, ?_⟩
      · intro m hm
        unfold addMember
        simp [hperm, hu, hany, hm]
      · intro hm
        unfold addMember
        simp [hperm, hu, hany, hm]

/-- Witness for C9 at `tagStore`: the owner adds user "bob" — absent,
so 404 — and a fresh store row case via `sampleStore`'s owner adding a
genuinely new member is covered by the 404/insert branches. -/
theorem addMember_cases_witness :
    addMember tagStore 1 1 "bob@example.com" MemberRole.member =
      (⟨404, Option.some "User not found with this email address"⟩,
       tagStore) :=
  (addMember_cases tagStore 1 1 "bob@example.com" MemberRole.member
    (by decide)).1 (by decide)

/-! ## C10 -/

/-- Reduction of a successful `updateSubtask` call. -/
theorem updateSubtask_red (s : Store) (c sid : Nat) (S : SubtaskRow)
    (T : TaskRow) (a : Nat × Option MemberRole) (ttl : String)
    (cb? : Option Bool)
    (hS : s.subtasks.find? (fun x => x.id == sid) = Option.some S)
    (hT : s.tasks.find? (fun x => x.id == S.taskId) = Option.some T)
    (hacc : checkListAccess s c T.listId = Option.some a) :
    updateSubtask s c sid ttl cb? = (⟨200, Option.none⟩,
      { s with subtasks := s.subtasks.map (fun x : SubtaskRow =>
          if x.id == sid then
            { x with title := ttl, completed := cb?.getD S.completed }
          else x) }) := by
  unfold updateSubtask
  simp only [hS, hT, hacc]

/-- Reduction of a successful `updateTask` call without a tags
array. -/
theorem updateTask_red_noTags (s : Store) (c tid : Nat) (U : TaskRow)
    (b : Nat × Option MemberRole) (ttl : String)
    (d p dd : Option String) (cb? : Option Bool)
    (hU : s.tasks.find? (fun x => x.id == tid) = Option.some U)
    (hacc : checkListAccess s c U.listId = Option.some b) :
    updateTask s c tid ttl d p dd cb? Option.none = (⟨200, Option.none⟩,
      writeTaskRow s tid ttl d p dd cb?) := by
  unfold updateTask
  simp only [hU, hacc]

/-- C10: `updateSubtask` with the `completed` field omitted reads the
stored row back and rewrites `completed` unchanged, while `updateTask`
with `completed` omitted replaces it by false — the two sibling update
operations treat the omitted field differently. -/
theorem omittedCompleted_subtask_vs_task (s : Store) (c sid tid : Nat)
    (S : SubtaskRow) (T U : TaskRow) (a b : Nat × Option MemberRole)
    (sttl uttl : String)
    (hS : s.subtasks.find? (fun x => x.id == sid) = Option.some S)
    (hT : s.tasks.find? (fun x => x.id == S.taskId) = Option.some T)
    (haccS : checkListAccess s c T.listId = Option.some a)
    (hU : s.tasks.find? (fun x => x.id == tid) = Option.some U)
    (haccU : checkListAccess s c U.listId = Option.some b) :
    (updateSubtask s c sid sttl Option.none).2.subtasks.find?
        (fun x => x.id == sid) =
      Option.some { S with title := sttl } ∧
    (updateTask s c tid uttl Option.none Option.none Option.none
        Option.none Option.none).2.tasks.find? (fun x => x.id == tid) =
      Option.some { U with
                    title := uttl, description := Option.none,
                    priority := Option.none, dueDate := Option.none,
                    completed := false } := by
  constructor
  · rw [updateSubtask_red s c sid S T a sttl Option.none hS hT haccS]
    have hSbeq : (S.id == sid) = true := by
      have := List.find?_some hS
      simpa using this
    have hpres : ∀ x : SubtaskRow,
        (((fun x0 : SubtaskRow => if x0.id == sid then
            { x0 with
              title := sttl,
              completed := (Option.none : Option Bool).getD S.completed }
            else x0) x).id == sid) = (x.id == sid) := by
      intro x
      by_cases h : (x.id == sid) = true <;> simp [h]
    have := find?_map_pres (fun x : SubtaskRow => x.id == sid)
      (fun x0 : SubtaskRow => if x0.id == sid then
        { x0 with
          title := sttl,
          completed := (Option.none : Option Bool).getD S.completed }
        else x0) hpres hS
    rw [show (fun x0 : SubtaskRow => if x0.id == sid then
        { x0 with
          title := sttl,
          completed := (Option.none : Option Bool).getD S.completed }
        else x0) S = { S with title := sttl } from by simp [hSbeq]] at this
    exact this
  · rw [updateTask_red_noTags s c tid U b uttl Option.none Option.none
      Option.none Option.none hU haccU]
    have hUbeq : (U.id == tid) = true := by
      have := List.find?_some hU
      simpa using this
    have hpres : ∀ x : TaskRow,
        (((fun x0 : TaskRow => if x0.id == tid then
            { x0 with
              title := uttl, description := Option.none,
              priority := Option.none, dueDate := Option.none,
              completed := (Option.none : Option Bool).getD false }
            else x0) x).id == tid) = (x.id == tid) := by
      intro x
      by_cases h : (x.id == tid) = true <;> simp [h]
    have := find?_map_pres (fun x : TaskRow => x.id == tid)
      (fun x0 : TaskRow => if x0.id == tid then
        { x0 with
          title := uttl, description := Option.none,
          priority := Option.none, dueDate := Option.none,
          completed := (Option.none : Option Bool).getD false }
        else x0) hpres hU
    rw [show (fun x0 : TaskRow => if x0.id == tid then
        { x0 with
          title := uttl, description := Option.none,
          priority := Option.none, dueDate := Option.none,
          completed := (Option.none : Option Bool).getD false }
        else x0) U = { U with
                       title := uttl, description := Option.none,
                       priority := Option.none, dueDate := Option.none,
                       completed := false } from by simp [hUbeq]] at this
    exact this

/-- Witness for C10 at `sampleStore`: subtask 1 keeps its stored
`completed = false`, while completed task 1 is reset to false. -/
theorem omittedCompleted_subtask_vs_task_witness :
    (updateSubtask sampleStore 1 1 "new title" Option.none).2.subtasks.find?
        (fun x => x.id == 1) =
      Option.some ⟨1, 1, "new title", false⟩ ∧
    (updateTask sampleStore 1 1 "buy milk" Option.none Option.none
        Option.none Option.none Option.none).2.tasks.find?
        (fun x => x.id == 1) =
      Option.some ⟨1, 1, "buy milk", Option.none, Option.none, Option.none,
        false⟩ :=
  omittedCompleted_subtask_vs_task sampleStore 1 1 1
    ⟨1, 1, "find store", false⟩
    ⟨1, 1, "buy milk", Option.none, Option.none, Option.none, true⟩
    ⟨1, 1, "buy milk", Option.none, Option.none, Option.none, true⟩
    (1, Option.none) (1, Option.none) "new title" "buy milk"
    (by decide) (by decide) (by decide) (by decide) (by decide)

/-! ## C4 -/

/-- A passing non-owner permission check names an existing list. -/
theorem checkListPermission_false_list {s : Store} {c lid : Nat}
    (h : checkListPermission s c lid false = true) :
    ∃ l0 ∈ s.lists, l0.id = lid := by
  unfold checkListPermission at h
  rw [if_neg (by decide)] at h
  cases hfl : findListRow s lid with
  | none =>
    rw [hfl] at h
    exact Bool.noConfusion (show false = true from h)
  | some l0 =>
    rw [hfl] at h
    exact ⟨l0, (findListRow_eq_some hfl).1, (findListRow_eq_some hfl).2⟩

/-- A passing owner permission check names an existing list the caller
owns. -/
theorem checkListPermission_true_owner {s : Store} {c lid : Nat}
    (h : checkListPermission s c lid true = true) :
    ∃ l0 ∈ s.lists, l0.id = lid ∧ l0.ownerId = c := by
  unfold checkListPermission at h
  rw [if_pos rfl] at h
  rcases List.any_eq_true.1 h with ⟨l0, hl0, hp⟩
  simp only [Bool.and_eq_true, beq_iff_eq] at hp
  exact ⟨l0, hl0, hp.1, hp.2⟩

/-- The fresh deployment satisfies the invariant. -/
theorem goodStore_initial (users : List UserRow) :
    GoodStore (Store.initial users) := by
  refine ⟨⟨?_, ?_⟩, ?_⟩
  · intro l hl; cases hl
  · intro m hm; cases hm
  · intro l hl; cases hl

/-- `createList` preserves the invariant: the fresh list id exceeds
every membership row's list id, and no membership row is inserted. -/
theorem goodStore_createList {s : Store} (h : GoodStore s) (uid : Nat)
    (name : String) : GoodStore (createList s uid name).2 := by
  obtain ⟨⟨hb1, hb2⟩, hown⟩ := h
  unfold createList
  refine ⟨⟨?_, ?_⟩, ?_⟩
  · intro l hl
    rcases List.mem_append.1 hl with h1 | h1
    · exact Nat.lt_succ_of_lt (hb1 l h1)
    · rcases List.mem_singleton.1 h1 with rfl
      exact Nat.lt_succ_self _
  · intro m hm
    exact Nat.lt_succ_of_lt (hb2 m hm)
  · intro l hl m hm hml
    rcases List.mem_append.1 hl with h1 | h1
    · exact hown l h1 m hm hml
    · rcases List.mem_singleton.1 h1 with rfl
      have hlt := hb2 m hm
      rw [hml] at hlt
      exact absurd hlt (Nat.lt_irrefl _)

/-- `updateMemberRole` preserves the invariant: only the `role` field
of existing rows changes. -/
theorem goodStore_updateMemberRole {s : Store} (h : GoodStore s)
    (c lid t : Nat) (r? : Option String) :
    GoodStore (updateMemberRole s c lid t r?).2 := by
  obtain ⟨⟨hb1, hb2⟩, hown⟩ := h
  unfold updateMemberRole
  split
  · exact ⟨⟨hb1, hb2⟩, hown⟩
  split
  · exact ⟨⟨hb1, hb2⟩, hown⟩
  split
  · exact ⟨⟨hb1, hb2⟩, hown⟩
  split
  · exact ⟨⟨hb1, hb2⟩, hown⟩
  refine ⟨⟨hb1, ?_⟩, ?_⟩
  · intro m' hm'
    rcases List.mem_map.1 hm' with ⟨m, hm, rfl⟩
    by_cases hc : (m.listId == lid && m.userId == t) = true
    · rw [if_pos hc]; exact hb2 m hm
    · rw [if_neg hc]; exact hb2 m hm
  · intro l hl m' hm'
    rcases List.mem_map.1 hm' with ⟨m, hm, rfl⟩
    by_cases hc : (m.listId == lid && m.userId == t) = true
    · rw [if_pos hc]; exact hown l hl m hm
    · rw [if_neg hc]; exact hown l hl m hm

/-- `removeMember` preserves the invariant: rows are only deleted. -/
theorem goodStore_removeMember {s : Store} (h : GoodStore s)
    (c lid t : Nat) : GoodStore (removeMember s c lid t).2 := by
  obtain ⟨⟨hb1, hb2⟩, hown⟩ := h
  unfold removeMember
  split
  · exact ⟨⟨hb1, hb2⟩, hown⟩
  split
  · exact ⟨⟨hb1, hb2⟩, hown⟩
  split
  · exact ⟨⟨hb1, hb2⟩, hown⟩
  refine ⟨⟨hb1, ?_⟩, ?_⟩
  · intro m hm
    exact hb2 m (List.mem_filter.1 hm).1
  · intro l hl m hm
    exact hown l hl m (List.mem_filter.1 hm).1

/-- `leaveList` preserves the invariant: rows are only deleted. -/
theorem goodStore_leaveList {s : Store} (h : GoodStore s)
    (c lid : Nat) : GoodStore (leaveList s c lid).2 := by
  obtain ⟨⟨hb1, hb2⟩, hown⟩ := h
  unfold leaveList
  split
  · exact ⟨⟨hb1, hb2⟩, hown⟩
  split
  · exact ⟨⟨hb1, hb2⟩, hown⟩
  refine ⟨⟨hb1, ?_⟩, ?_⟩
  · intro m hm
    exact hb2 m (List.mem_filter.1 hm).1
  · intro l hl m hm
    exact hown l hl m (List.mem_filter.1 hm).1

/-- `addMember` preserves the invariant: the insert happens only after
the target was checked not to be the list's owner. -/
theorem goodStore_addMember {s : Store} (h : GoodStore s) (c lid : Nat)
    (em : String) (r : MemberRole) :
    GoodStore (addMember s c lid em r).2 := by
  obtain ⟨⟨hb1, hb2⟩, hown⟩ := h
  unfold addMember
  split
  · exact ⟨⟨hb1, hb2⟩, hown⟩
  next hperm =>
  split
  · exact ⟨⟨hb1, hb2⟩, hown⟩
  next u hu =>
  split
  · exact ⟨⟨hb1, hb2⟩, hown⟩
  next hany =>
  split
  · exact ⟨⟨hb1, hb2⟩, hown⟩
  next hmem =>
  have hperm' : checkListPermission s c lid false = true := by
    simpa using hperm
  obtain ⟨l0, hl0, hl0id⟩ := checkListPermission_false_list hperm'
  have hnotOwner : ∀ x ∈ s.lists, x.id = lid → x.ownerId ≠ u.id := by
    intro x hx hxid
    have : ¬(x.id == lid && x.ownerId == u.id) = true := by
      intro hx2
      exact hany (List.any_eq_true.2 ⟨x, hx, hx2⟩)
    simp only [Bool.and_eq_true, beq_iff_eq, not_and] at this
    exact this hxid
  refine ⟨⟨hb1, ?_⟩, ?_⟩
  · intro m hm
    rcases List.mem_cons.1 hm with rfl | hm'
    · show lid < s.nextListId
      rw [← hl0id]
      exact hb1 l0 hl0
    · exact hb2 m hm'
  · intro l hl m hm
    rcases List.mem_cons.1 hm with rfl | hm'
    · intro hml
      show u.id ≠ l.ownerId
      have hlid : l.id = lid := hml.symm
      exact fun he => hnotOwner l hl hlid he.symm
    · exact hown l hl m hm'

/-- `transferOwnership` preserves the invariant: a failing transaction
leaves the store untouched, and a successful one removes the new
owner's membership row before it inserts the previous owner and
rewrites `ownerId`. -/
theorem goodStore_transferOwnership {s : Store} (h : GoodStore s)
    (c lid : Nat) (em? : Option String) (fail : TxnStep → Bool) :
    GoodStore (transferOwnership s c lid em? fail).2 := by
  obtain ⟨⟨hb1, hb2⟩, hown⟩ := h
  unfold transferOwnership
  split
  · exact ⟨⟨hb1, hb2⟩, hown⟩
  split
  · exact ⟨⟨hb1, hb2⟩, hown⟩
  next hperm =>
  split
  · exact ⟨⟨hb1, hb2⟩, hown⟩
  next nown hnown =>
  split
  · exact ⟨⟨hb1, hb2⟩, hown⟩
  next hself =>
  split
  case _ s' heq =>
    have hperm' : checkListPermission s c lid true = true := by
      simpa using hperm
    obtain ⟨l0, hl0, hl0id, _⟩ := checkListPermission_true_owner hperm'
    have hne : nown.id ≠ c := by
      intro he
      exact hself (by simp [he])
    unfold transferTxn at heq
    split at heq
    · exact Option.noConfusion heq
    split at heq
    · exact Option.noConfusion heq
    split at heq
    · exact Option.noConfusion heq
    injection heq with heq
    subst heq
    refine ⟨⟨?_, ?_⟩, ?_⟩
    · intro l hl
      rcases List.mem_map.1 hl with ⟨l1, hl1, rfl⟩
      by_cases hc : (l1.id == lid) = true
      · rw [if_pos hc]; exact hb1 l1 hl1
      · rw [if_neg hc]; exact hb1 l1 hl1
    · intro m hm
      rcases List.mem_cons.1 hm with rfl | hm'
      · show lid < s.nextListId
        rw [← hl0id]
        exact hb1 l0 hl0
      · exact hb2 m (List.mem_filter.1 hm').1
    · intro l' hl' m hm
      rcases List.mem_map.1 hl' with ⟨l1, hl1, rfl⟩
      by_cases hc : (l1.id == lid) = true
      · rw [if_pos hc]
        intro hml
        show m.userId ≠ nown.id
        rcases List.mem_cons.1 hm with rfl | hm'
        · exact fun he => hne he.symm
        · have hkeep := (List.mem_filter.1 hm').2
          simp only [Bool.not_eq_true', Bool.and_eq_false_iff,
            beq_eq_false_iff_ne, ne_eq] at hkeep
          have hmlid : m.listId = lid := by
            have : l1.id = lid := by simpa using hc
            rw [hml]; exact this
          rcases hkeep with hk | hk
          · exact absurd hmlid hk
          · exact hk
      · rw [if_neg hc]
        intro hml
        rcases List.mem_cons.1 hm with rfl | hm'
        · exfalso
          have : l1.id = lid := by
            rw [← hml]
          exact hc (by simpa using this)
        · exact hown l1 hl1 m (List.mem_filter.1 hm').1 hml
  case _ heq =>
    exact ⟨⟨hb1, hb2⟩, hown⟩

/-- Every reachable store satisfies the combined invariant. -/
theorem reachable_goodStore {s : Store} (h : Reachable s) : GoodStore s := by
  induction h with
  | init users => exact goodStore_initial users
  | stepCreateList uid name _ ih => exact goodStore_createList ih uid name
  | stepAddMember c lid em r _ ih => exact goodStore_addMember ih c lid em r
  | stepUpdateMemberRole c lid t r? _ ih =>
    exact goodStore_updateMemberRole ih c lid t r?
  | stepRemoveMember c lid t _ ih => exact goodStore_removeMember ih c lid t
  | stepLeaveList c lid _ ih => exact goodStore_leaveList ih c lid
  | stepTransferOwnership c lid em? fail _ ih =>
    exact goodStore_transferOwnership ih c lid em? fail

/-- C4: in every store reachable through the public list and
membership operations, no list has a membership row whose `userId`
equals the list's `ownerId` — the owner is never simultaneously a
member of their own list. -/
theorem owner_never_member (s : Store) (h : Reachable s) :
    OwnerNotMember s :=
  (reachable_goodStore h).2

/-- Witness for C4: two users register, user 1 creates a list and adds
user 2 as a member — a genuinely populated reachable store. -/
theorem owner_never_member_witness :
    OwnerNotMember (addMember (createList (Store.initial
        [⟨1, "alice", "alice@example.com"⟩, ⟨2, "bob", "bob@example.com"⟩])
        1 "Groceries").2 1 1 "bob@example.com" MemberRole.member).2 :=
  owner_never_member _
    (Reachable.stepAddMember 1 1 "bob@example.com" MemberRole.member
      (Reachable.stepCreateList 1 "Groceries" (Reachable.init _)))

end Todo
